import Mathlib

/-!
Verification of the court discovery / inventory pipeline
(`court_inventory.py`, `court_ai_discovery.py`, `court_scraper.py`,
`court_data.py`) as a shallow embedding.  Python dictionaries for court
candidates are modelled as records of optional fields, timestamps as
integers, the SQL tables as lists of rows, and every fallible external
call (the text-understanding service, the page fetch, the database) as an
explicit parameter or outcome value.
-/

/-- Contact information sub-object of a candidate or court row
(phone, email, hours), as produced by the extraction and verification
prompts in court_ai_discovery.py. -/
structure ContactInfo where
  phone : Option String
  email : Option String
  hours : Option String
deriving Repr, DecidableEq

/-- Court candidate dictionary as built by discover_courts_from_content
(court_ai_discovery.py) and enriched by verify_court_info.  Fields absent
from the Python dict are modelled as none; the confidence score is a
rational in place of the Python float (it is stored and compared, never
computed with). -/
structure Candidate where
  name : Option String
  type : Option String
  jurisdiction : Option String
  jurisdiction_type : Option String
  address : Option String
  url : Option String
  status : Option String
  contact_info : Option ContactInfo
  divisions : List String
  services : List String
  verified : Option Bool
  confidence : Option ℚ
  message : Option String
deriving Repr, DecidableEq

/-- Parsed JSON object returned by the external verification service in
verify_court_info (court_ai_discovery.py lines 460-473).  Every key may be
missing, which the Python code observes as a KeyError on direct indexing;
the address key may also be present with a null value. -/
structure VerifyResponse where
  verified : Option Bool
  confidence : Option ℚ
  type : Option String
  status : Option String
  address : Option (Option String)
  jurisdiction : Option String
  jurisdiction_type : Option String
  contact_info : Option ContactInfo
  message : Option String
deriving Repr, DecidableEq

/-- Row of the courts table as written by process_court_source
(court_inventory.py lines 602-624): name, type, url, jurisdiction_id,
status, address, contact_info, last_updated. -/
structure CourtRow where
  name : String
  type : String
  url : Option String
  jurisdiction_id : Nat
  status : String
  address : Option String
  contact_info : ContactInfo
  last_updated : Int
deriving Repr, DecidableEq

/-- Row of the inventory_updates table (court_inventory.py schema lines
190-204): run progress, status, message and the two terminal timestamp
columns. -/
structure InventoryRun where
  status : String
  message : Option String
  sources_processed : Nat
  total_sources : Nat
  current_source : Option String
  next_source : Option String
  stage : Option String
  completed_at : Option Int
  end_time : Option Int
  new_courts_found : Nat
  courts_updated : Nat
deriving Repr, DecidableEq

/-- Row of the court_sources table (court_inventory.py schema lines
179-188).  The update_frequency interval is in abstract time units with
the SQL default of 24 units standing for the 24-hour default. -/
structure CourtSource where
  id : Nat
  jurisdiction_id : Nat
  source_url : String
  is_active : Bool
  last_checked : Option Int
  last_updated : Option Int
  update_frequency : Option Int
deriving Repr, DecidableEq

/-- Verification step verify_court_info (court_ai_discovery.py lines
417-484).  The external call either fails (any exception from the API
call or JSON parsing, modelled as the error case) or yields a parsed
response object.  On success the code builds one dict literal indexing
the keys verified, confidence, type, status, address, jurisdiction and
jurisdiction_type directly, so a single missing key raises KeyError
before the update is applied and the except branch returns the input
candidate unchanged; contact_info and message are read with dict get and
therefore default instead of failing. -/
def verify_court_info (resp : Except Unit VerifyResponse) (court_data : Candidate) :
    Candidate :=
  match resp with
  | .error _ => court_data
  | .ok result =>
    match result.verified, result.confidence, result.type, result.status,
          result.address, result.jurisdiction, result.jurisdiction_type with
    | some v, some conf, some ty, some st, some addr, some j, some jt =>
      { court_data with
          verified := some v
          confidence := some conf
          type := some ty
          status := some st
          address := addr
          jurisdiction := some j
          jurisdiction_type := some jt
          contact_info := some (result.contact_info.getD ⟨none, none, none⟩)
          message := result.message }
    | _, _, _, _, _, _, _ => court_data

/-- Acceptance test applied to a verification result before persistence:
the expression verified_court.get of the verified key with default False,
as written at court_inventory.py line 598 and court_ai_discovery.py line
400.  No other field of the candidate is consulted. -/
def candidate_accepted (vc : Candidate) : Bool :=
  vc.verified.getD false

/-- Verification loop of process_court_page (court_ai_discovery.py lines
396-411): each extracted candidate is verified in order and kept exactly
when the acceptance test passes; the per-candidate try block drops a
failing candidate and continues with its siblings. -/
def process_page_courts (svc : Candidate → Except Unit VerifyResponse) :
    List Candidate → List Candidate
  | [] => []
  | court :: rest =>
    let vc := verify_court_info (svc court) court
    if candidate_accepted vc then vc :: process_page_courts svc rest
    else process_page_courts svc rest

/-- Insert-or-update on the courts table as issued by process_court_source
(court_inventory.py lines 602-624): INSERT with ON CONFLICT on the name
column updating type, url, status, address, contact_info and last_updated
but not jurisdiction_id, RETURNING whether the row was freshly inserted
(the xmax = 0 test).  The table is a list of rows; the boolean result is
the is_insert flag. -/
def upsert_court (table : List CourtRow) (payload : CourtRow) :
    List CourtRow × Bool :=
  if table.any (fun r => r.name == payload.name) then
    (table.map (fun r =>
      if r.name == payload.name then
        { r with
            type := payload.type
            url := payload.url
            status := payload.status
            address := payload.address
            contact_info := payload.contact_info
            last_updated := payload.last_updated }
      else r), false)
  else
    (table ++ [payload], true)

/-- Row built from a verified candidate for the INSERT of
process_court_source: direct indexing of the name, type and status keys
(which raise KeyError when absent, handled by the caller of this
function), dict get for url, address and contact_info (defaulting to the
empty contact object), and the current timestamp for last_updated. -/
def mkRow (vc : Candidate) (nm ty st : String) (jid : Nat) (now : Int) :
    CourtRow :=
  { name := nm, type := ty, url := vc.url, jurisdiction_id := jid,
    status := st, address := vc.address,
    contact_info := vc.contact_info.getD ⟨none, none, none⟩,
    last_updated := now }

/-- Candidate loop of process_court_source (court_inventory.py lines
595-632): verify each candidate, skip it when the acceptance test fails,
otherwise upsert it and count it as new or updated according to the
is_insert flag.  Direct indexing of a missing name, type or status key
raises KeyError, which the enclosing except branch turns into a rollback
of the whole source; that abort is the error case. -/
def upsert_loop (svc : Candidate → Except Unit VerifyResponse) (jid : Nat)
    (now : Int) :
    List Candidate → List CourtRow × Nat × Nat →
      Except Unit (List CourtRow × Nat × Nat)
  | [], acc => .ok acc
  | c :: rest, (tbl, n, u) =>
    let vc := verify_court_info (svc c) c
    if candidate_accepted vc then
      match vc.name, vc.type, vc.status with
      | some nm, some ty, some st =>
        let res := upsert_court tbl (mkRow vc nm ty st jid now)
        upsert_loop svc jid now rest
          (res.1, (if res.2 then n + 1 else n), (if res.2 then u else u + 1))
      | _, _, _ => .error ()
    else
      upsert_loop svc jid now rest (tbl, n, u)

/-- Whole of process_court_source (court_inventory.py lines 568-667)
acting on the courts table, the run row and the source row.  The fetched
argument is none when the page fetch raises (requests.get or
raise_for_status), and the extracted candidate list otherwise; an empty
list is the no-courts-found early return.  On the committed path the run
counters are incremented and the source row receives last_checked = now
and last_updated = now exactly when at least one court was new or
updated; every other path returns zero counts and leaves all three
stores untouched (early return or rollback). -/
def process_court_source (tbl : List CourtRow) (run : InventoryRun)
    (src : CourtSource) (fetched : Option (List Candidate))
    (svc : Candidate → Except Unit VerifyResponse) (jid : Nat) (now : Int) :
    (List CourtRow × InventoryRun × CourtSource) × Nat × Nat :=
  match fetched with
  | none => ((tbl, run, src), 0, 0)
  | some cands =>
    if cands.isEmpty then ((tbl, run, src), 0, 0)
    else
      match upsert_loop svc jid now cands (tbl, 0, 0) with
      | .error _ => ((tbl, run, src), 0, 0)
      | .ok (tbl2, n, u) =>
        ((tbl2,
          { run with
              new_courts_found := run.new_courts_found + n
              courts_updated := run.courts_updated + u },
          { src with
              last_checked := some now
              last_updated :=
                if 0 < n || 0 < u then some now else src.last_updated }),
         n, u)


/-- Status update of update_scraper_status (court_inventory.py lines
32-106) applied to the run row: all progress columns are overwritten from
the arguments and completed_at is set to the current timestamp exactly
when the new status is completed or error, and reset to NULL otherwise
(the SQL CASE expression at lines 72-75).  The human-readable percentage
string assembled into the message is abstracted to the raw message
argument. -/
def update_scraper_status (r : InventoryRun) (sp tot : Nat)
    (status message : String) (cur nxt stg : Option String) (now : Int) :
    InventoryRun :=
  { r with
      sources_processed := sp
      total_sources := tot
      status := status
      message := some message
      current_source := cur
      next_source := nxt
      stage := stg
      completed_at :=
        if status == "completed" || status == "error" then some now
        else none }

/-- One observable write applied to the run row during
update_court_inventory: either a call to update_scraper_status, or the
counter increment issued by process_court_source (court_inventory.py
lines 635-640), which touches only new_courts_found and courts_updated. -/
inductive RunOp where
  | upd (sp tot : Nat) (status message : String) (cur nxt stg : Option String)
  | addCounts (n u : Nat)
deriving Repr, DecidableEq

/-- Effect of a single run operation on the run row. -/
def applyOp (now : Int) (r : InventoryRun) : RunOp → InventoryRun
  | .upd sp tot status message cur nxt stg =>
    update_scraper_status r sp tot status message cur nxt stg now
  | .addCounts n u =>
    { r with
        new_courts_found := r.new_courts_found + n
        courts_updated := r.courts_updated + u }

/-- States reached by applying a list of run operations in order,
recording the state after each operation. -/
def applyOps (now : Int) (r : InventoryRun) : List RunOp → List InventoryRun
  | [] => []
  | op :: ops =>
    let r1 := applyOp now r op
    r1 :: applyOps now r1 ops

/-- Data of one due source as seen by the run loop of
update_court_inventory: jurisdiction type and name shown in the progress
message, and the new and updated counts its processing reports. -/
structure SourceStep where
  jtype : String
  jname : String
  newCourts : Nat
  updCourts : Nat
deriving Repr, DecidableEq

/-- How one invocation of update_court_inventory ends: the normal path
writing the completed status, an exception before the first status write
(the initial query), or an exception after some number of sources were
processed; the except branch at court_inventory.py lines 799-812 writes
the error status exactly once in both failure cases. -/
inductive RunOutcome where
  | success
  | failEarly
  | failLoop (k : Nat)
deriving Repr, DecidableEq

/-- Per-source pair of operations issued inside the run loop
(court_inventory.py lines 755-771): the running progress update, then
the counter increment committed by process_court_source. -/
def loopOps (tot : Nat) : List (Nat × SourceStep) → List RunOp
  | [] => []
  | (i, s) :: rest =>
    .upd i tot "running" ("Processing " ++ s.jtype ++ " jurisdiction: " ++ s.jname)
        (some s.jname) (some "next") (some ("Checking " ++ s.jtype ++ " courts")) ::
    .addCounts s.newCourts s.updCourts ::
    loopOps tot rest

/-- Operation sequence applied to the run row by one invocation of
update_court_inventory (court_inventory.py lines 669-815) with a
nonempty due-source list: the initial running update, the per-source
loop, then exactly one terminal update; with an empty source list the
function returns before any status write.  On failure the loop stops
after k sources and the except branch writes the single error update. -/
def runOps (srcs : List SourceStep) (out : RunOutcome) : List RunOp :=
  if srcs.isEmpty then []
  else
    let tot := srcs.length
    match out with
    | .success =>
      .upd 0 tot "running" "Processing all courts" none none
          (some "Starting inventory update") ::
      loopOps tot (List.enumFrom 1 srcs) ++
      [.upd tot tot "completed" "Processed sources" (some "Complete") none
          (some "Finished")]
    | .failEarly =>
      [.upd 0 tot "error" "Error updating court inventory" (some "Error") none
          (some "Failed")]
    | .failLoop k =>
      .upd 0 tot "running" "Processing all courts" none none
          (some "Starting inventory update") ::
      loopOps tot (List.enumFrom 1 (srcs.take k)) ++
      [.upd 0 tot "error" "Error updating court inventory" (some "Error") none
          (some "Failed")]

/-- Fresh run row inserted by initialize_inventory_run
(court_inventory.py lines 120-125): status running, stage set, all
counters zero, both terminal timestamps NULL. -/
def newRun : InventoryRun :=
  { status := "running", message := none, sources_processed := 0,
    total_sources := 0, current_source := none, next_source := none,
    stage := some "Starting inventory update", completed_at := none,
    end_time := none, new_courts_found := 0, courts_updated := 0 }

/-- Successive states of the run row over one invocation of
update_court_inventory, beginning with the freshly inserted row. -/
def runTrace (srcs : List SourceStep) (out : RunOutcome) (now : Int) :
    List InventoryRun :=
  newRun :: applyOps now newRun (runOps srcs out)

/-- Stale-run recovery inside initialize_database (court_inventory.py
lines 225-233): every row still in the running status is forced to the
error status with message Reset stalled update and both terminal
timestamps set to the current time; all other rows are left untouched by
the WHERE clause. -/
def reset_stalled_updates (rows : List InventoryRun) (now : Int) :
    List InventoryRun :=
  rows.map (fun r =>
    if r.status == "running" then
      { r with
          status := "error"
          completed_at := some now
          end_time := some now
          message := some "Reset stalled update" }
    else r)

/-- Due-source condition of the inventory query (court_inventory.py lines
688-696): the source is active and either never checked or last checked
strictly earlier than now minus its update frequency, the frequency
defaulting to 24 units through COALESCE. -/
def is_due (now : Int) (cs : CourtSource) : Bool :=
  cs.is_active &&
    (match cs.last_checked with
     | none => true
     | some t => decide (t < now - cs.update_frequency.getD 24))

/-- Source rows returned by the due-sources query of
update_court_inventory for the all-types invocation. -/
def due_sources (now : Int) (rows : List CourtSource) : List CourtSource :=
  rows.filter (is_due now)

/-- Count of pool acquisitions and releases performed by one operation,
the pairing contract of court_data.py: get_db_connection acquires,
return_db_connection or close releases. -/
structure ConnLedger where
  acquired : Nat
  released : Nat
deriving Repr, DecidableEq

/-- Release of a live connection through return_db_connection
(court_data.py lines 95-105): the connection is put back to the pool, or
closed when putting it back fails; either way one release is recorded. -/
def return_db_connection (l : ConnLedger) (connLive : Bool) : ConnLedger :=
  if connLive then { l with released := l.released + 1 } else l

/-- Control flow of initialize_scraper_run (court_scraper.py lines 17-41)
over the connection ledger.  The try block acquires a connection, runs
the INSERT and commit, closes the cursor, releases the connection and
returns the fresh run id; the bare except returns None.  There is no
finally clause, so when the INSERT or the commit raises after the
connection was acquired, the except path performs no release.  The two
booleans say whether get_db_connection yields a connection and whether
the INSERT and commit succeed. -/
def init_scraper_run (connOk : Bool) (insertOk : Bool) :
    Option Nat × ConnLedger :=
  if !connOk then
    (none, { acquired := 0, released := 0 })
  else if insertOk then
    (some 1, return_db_connection { acquired := 1, released := 0 } true)
  else
    (none, { acquired := 1, released := 0 })

/-- Strip of leading and trailing whitespace, the Python str.strip with
no argument restricted to the ASCII whitespace the inputs contain. -/
def pyStrip (cs : List Char) : List Char :=
  ((cs.dropWhile Char.isWhitespace).reverse.dropWhile Char.isWhitespace).reverse

/-- Test that the first list begins with the second. -/
def listStartsWith : List Char → List Char → Bool
  | _, [] => true
  | [], _ :: _ => false
  | c :: cs, p :: ps => c == p && listStartsWith cs ps

/-- Character class of the host part of the URL regular expression in
clean_and_validate_url: word characters (ASCII letters, digits,
underscore), hyphen and dot. -/
def isHostChar (c : Char) : Bool :=
  c.isAlphanum || c == '_' || c == '-' || c == '.'

/-- Character class of the optional path, query and fragment part of the
URL regular expression: host characters plus slash, question mark,
percent, ampersand and equals. -/
def isPathChar (c : Char) : Bool :=
  isHostChar c || c == '/' || c == '?' || c == '%' || c == '&' || c == '='

/-- Match of the optional path group, a slash followed by path
characters running to the end of the string. -/
def matchPath : List Char → Bool
  | [] => true
  | '/' :: rest => rest.all isPathChar
  | _ => false

/-- Match of the optional port group, a colon followed by one or more
digits, then the optional path group. -/
def matchPort : List Char → Bool
  | ':' :: rest =>
    let ds := rest.takeWhile Char.isDigit
    if ds.isEmpty then false else matchPath (rest.drop ds.length)
  | cs => matchPath cs

/-- Match of the anchored URL shape used by clean_and_validate_url
(court_ai_discovery.py line 327): an http or https scheme, a nonempty
host of host characters, an optional port and an optional path. -/
def url_shape (s : List Char) : Bool :=
  let afterScheme : Option (List Char) :=
    if listStartsWith s "https://".data then some (s.drop 8)
    else if listStartsWith s "http://".data then some (s.drop 7)
    else none
  match afterScheme with
  | none => false
  | some rest =>
    let host := rest.takeWhile isHostChar
    if host.isEmpty then false else matchPort (rest.drop host.length)

/-- URL normalization clean_and_validate_url (court_ai_discovery.py lines
318-332): keep the part before the first opening parenthesis, strip
surrounding whitespace, prefix the https scheme when no http or https
scheme is present, then accept exactly the strings matching the URL
shape, returning none otherwise. -/
def clean_and_validate_url (url : String) : Option String :=
  let cleaned := pyStrip ((url.data).takeWhile (fun c => c != '('))
  let cleaned :=
    if listStartsWith cleaned "http://".data ||
       listStartsWith cleaned "https://".data then cleaned
    else "https://".data ++ cleaned
  if url_shape cleaned then some (String.mk cleaned) else none

/-- Acceptance condition as the SPECIFICATION states it (section 4.3 and
the threshold-enforcement property): verified must be true and confidence
strictly above 0.7.  This definition follows the spec wording, written
for comparison with candidate_accepted, which is what the code runs. -/
def spec_claimed_accept (vc : Candidate) : Prop :=
  vc.verified = some true ∧ (7 : ℚ) / 10 < vc.confidence.getD 0

/-- Concrete extracted candidate used as a test input: name and
jurisdiction present, nothing verified yet. -/
def exCandidate : Candidate :=
  { name := some "Example District Court", type := none,
    jurisdiction := some "Test State", jurisdiction_type := none,
    address := none, url := none, status := none, contact_info := none,
    divisions := [], services := [],
    verified := none, confidence := none, message := none }

/-- Concrete verification response with every required key present,
verified true and confidence exactly 0.7. -/
def exResponse : VerifyResponse :=
  { verified := some true, confidence := some (7 / 10),
    type := some "District Courts", status := some "Open",
    address := some (some "123 Main St, Springfield"),
    jurisdiction := some "Test State", jurisdiction_type := some "state",
    contact_info := none, message := some "ok" }

/-- Concrete verification response missing the required confidence key. -/
def partialResponse : VerifyResponse :=
  { exResponse with confidence := none }

/-- Verification service stub that succeeds on every candidate with the
fixed concrete response. -/
def svcOk : Candidate → Except Unit VerifyResponse :=
  fun _ => Except.ok exResponse

/-- Candidate on which the failing verification stub fails. -/
def badCand : Candidate :=
  { exCandidate with name := some "bad" }

/-- Verification service stub whose external call fails exactly on the
candidate named bad and succeeds on every other candidate. -/
def svcW : Candidate → Except Unit VerifyResponse :=
  fun cand => if cand.name == some "bad" then Except.error ()
              else Except.ok exResponse

/-- Concrete court row used as an upsert payload. -/
def exRow : CourtRow :=
  { name := "Example District Court", type := "District Courts",
    url := none, jurisdiction_id := 2, status := "Open",
    address := some "123 Main St, Springfield",
    contact_info := ⟨none, none, none⟩, last_updated := 11 }

/-- Concrete source row that was last checked at time 5. -/
def exSource : CourtSource :=
  { id := 1, jurisdiction_id := 2, source_url := "https://x.example.gov",
    is_active := true, last_checked := some 5, last_updated := some 3,
    update_frequency := some 24 }

/-- Concrete run row in the completed status. -/
def doneRun : InventoryRun :=
  { newRun with status := "completed", completed_at := some 3 }

/-- Run operations that keep a run in the running status: a progress
update whose status argument is running, or a counter increment. -/
def keepsRunning : RunOp → Prop
  | .upd _ _ st _ _ _ _ => st = "running"
  | .addCounts _ _ => True

/-- Run operations whose status argument is one of the three legal
statuses (counter increments write no status). -/
def okOp : RunOp → Prop
  | .upd _ _ st _ _ _ _ => st = "running" ∨ st = "completed" ∨ st = "error"
  | .addCounts _ _ => True

/-- Run rows whose status column holds one of the three legal values. -/
def statusOk (r : InventoryRun) : Prop :=
  r.status = "running" ∨ r.status = "completed" ∨ r.status = "error"

/-- C9: URL normalization maps the annotated bare domain, the http URL
and the padded https URL to their normalized forms, and rejects a
malformed input by returning none rather than failing. -/
theorem c9_url_normalization :
    clean_and_validate_url "example.gov (Circuit Court)" =
      some "https://example.gov" ∧
    clean_and_validate_url "http://example.gov" = some "http://example.gov" ∧
    clean_and_validate_url "  https://example.gov/path  " =
      some "https://example.gov/path" ∧
    clean_and_validate_url "not a url" = none := by
  refine ⟨?_, ?_, ?_, ?_⟩ <;> rfl

/-- C5: initialize_scraper_run acquires a connection and, when the insert
or commit fails, takes the bare except path that performs no release:
the acquired connection is leaked.  The success path and the
no-connection path are balanced. -/
theorem c5_connection_leak :
    (init_scraper_run true false).2.acquired = 1 ∧
    (init_scraper_run true false).2.released = 0 ∧
    (init_scraper_run true true).2.acquired = 1 ∧
    (init_scraper_run true true).2.released = 1 ∧
    (init_scraper_run false true).2.acquired = 0 ∧
    (init_scraper_run false true).2.released = 0 := by
  decide

/-- C1 counterexample: a candidate verified with confidence exactly 0.7
is accepted by the code, so the claimed equivalence between acceptance
and the spec condition (verified and confidence strictly above 0.7)
fails at this input. -/
theorem c1_counterexample :
    ¬ (candidate_accepted (verify_court_info (Except.ok exResponse) exCandidate) =
        true ↔
       spec_claimed_accept (verify_court_info (Except.ok exResponse) exCandidate)) := by
  intro hiff
  have hacc : candidate_accepted (verify_court_info (Except.ok exResponse) exCandidate) =
      true := rfl
  have hspec := hiff.mp hacc
  simp only [spec_claimed_accept] at hspec
  have hconf : (verify_court_info (Except.ok exResponse) exCandidate).confidence =
      some ((7 : ℚ) / 10) := rfl
  rw [hconf] at hspec
  simp at hspec

/-- C1 amended: the pipeline accepts a candidate exactly when its
verified flag is true; the confidence value is never consulted, so
acceptance is invariant under any change of confidence. -/
theorem c1_accept_iff_verified :
    (∀ vc : Candidate, candidate_accepted vc = true ↔ vc.verified = some true) ∧
    (∀ (vc : Candidate) (q : Option ℚ),
      candidate_accepted { vc with confidence := q } = candidate_accepted vc) := by
  constructor
  · intro vc
    cases h : vc.verified <;> simp [candidate_accepted, h]
  · intro vc q
    rfl

/-- C6 counterexample: resetting a store holding one stale running row
yields the message Reset stalled update, which is not the message the
claim states. -/
theorem c6_counterexample :
    (reset_stalled_updates [newRun] 7).map (fun r => r.message) =
      [some "Reset stalled update"] ∧
    (some "Reset stalled update" : Option String) ≠ some "stale run reset." := by
  decide

/-- C6 amended: stale-run recovery forces every running row to the error
status with message Reset stalled update and both terminal timestamps set
to the current time, and leaves every completed row untouched. -/
theorem c6_stale_reset (rows : List InventoryRun) (now : Int)
    (r : InventoryRun) (hmem : r ∈ rows) :
    (r.status = "running" →
      { r with status := "error", completed_at := some now,
               end_time := some now,
               message := some "Reset stalled update" } ∈
        reset_stalled_updates rows now) ∧
    (r.status = "completed" → r ∈ reset_stalled_updates rows now) := by
  constructor
  · intro h
    refine List.mem_map.mpr ⟨r, hmem, ?_⟩
    simp [h]
  · intro h
    refine List.mem_map.mpr ⟨r, hmem, ?_⟩
    simp [h]

/-- C6 amended witness: stale-run recovery at a concrete store with one
running row and one completed row. -/
theorem c6_stale_reset_witness :
    newRun ∈ [newRun, doneRun] ∧ newRun.status = "running" ∧
    doneRun ∈ [newRun, doneRun] ∧ doneRun.status = "completed" ∧
    ({ newRun with status := "error", completed_at := some (7 : Int),
                   end_time := some 7,
                   message := some "Reset stalled update" } ∈
      reset_stalled_updates [newRun, doneRun] 7) ∧
    doneRun ∈ reset_stalled_updates [newRun, doneRun] 7 :=
  ⟨by decide, rfl, by decide, rfl,
   (c6_stale_reset [newRun, doneRun] 7 newRun (by decide)).1 rfl,
   (c6_stale_reset [newRun, doneRun] 7 doneRun (by decide)).2 rfl⟩

/-- C7: a source is returned by the due-sources query exactly when it is
active and either never checked or checked strictly before now minus its
update frequency; a source last checked two frequency intervals ago is
due, one checked half an interval ago is not, and a never-checked source
is always due. -/
theorem c7_due_source_filter (now f : Int) (rows : List CourtSource)
    (cs : CourtSource) (hf : 1 ≤ f) (hfreq : cs.update_frequency = some f) :
    (cs ∈ due_sources now rows ↔
      (cs ∈ rows ∧ cs.is_active = true ∧
        (cs.last_checked = none ∨
          ∃ t, cs.last_checked = some t ∧ t < now - f))) ∧
    is_due now { cs with is_active := true,
                         last_checked := some (now - 2 * f) } = true ∧
    is_due now { cs with is_active := true,
                         last_checked := some (now - f / 2) } = false ∧
    is_due now { cs with is_active := true, last_checked := none } = true := by
  refine ⟨?_, ?_, ?_, ?_⟩
  · rw [due_sources, List.mem_filter]
    cases h : cs.last_checked with
    | none => simp [is_due, h]
    | some t => simp [is_due, h, hfreq]
  · simp [is_due, hfreq]
    omega
  · simp [is_due, hfreq]
    omega
  · simp [is_due]

/-- C7 witness: the due-source filter at time 100 on a concrete source
with frequency 24 last checked at time 5. -/
theorem c7_due_source_filter_witness :
    (1 : Int) ≤ 24 ∧ exSource.update_frequency = some 24 ∧
    ((exSource ∈ due_sources 100 [exSource] ↔
      (exSource ∈ [exSource] ∧ exSource.is_active = true ∧
        (exSource.last_checked = none ∨
          ∃ t, exSource.last_checked = some t ∧ t < 100 - 24))) ∧
     is_due 100 { exSource with is_active := true,
                                last_checked := some (100 - 2 * 24) } = true ∧
     is_due 100 { exSource with is_active := true,
                                last_checked := some (100 - 24 / 2) } = false ∧
     is_due 100 { exSource with is_active := true,
                                last_checked := none } = true) :=
  ⟨by norm_num, rfl, c7_due_source_filter 100 24 [exSource] exSource (by norm_num) rfl⟩

/-- C2: upserting the same payload twice into a table that has no row
with its name yields the is_insert flag true then false, and leaves
exactly one row keyed on that name, whose fields are the payload of the
second call. -/
theorem c2_upsert_idempotent (tbl : List CourtRow) (p : CourtRow)
    (hfresh : ∀ r ∈ tbl, r.name ≠ p.name) :
    (upsert_court tbl p).2 = true ∧
    (upsert_court (upsert_court tbl p).1 p).2 = false ∧
    (upsert_court (upsert_court tbl p).1 p).1.filter
      (fun r => r.name == p.name) = [p] := by
  have hany : (tbl.any fun r => r.name == p.name) = false := by
    rw [List.any_eq_false]
    intro r hr
    simpa using hfresh r hr
  have h1 : upsert_court tbl p = (tbl ++ [p], true) := by
    simp [upsert_court, hany]
  have hmap : ((tbl ++ [p]).map (fun r =>
      if r.name == p.name then
        { r with type := p.type, url := p.url, status := p.status,
                 address := p.address, contact_info := p.contact_info,
                 last_updated := p.last_updated }
      else r)) = tbl ++ [p] := by
    rw [List.map_append]
    congr 1
    · calc tbl.map _ = tbl.map id := by
            apply List.map_congr_left
            intro r hr
            simp [hfresh r hr]
         _ = tbl := List.map_id tbl
    · simp
  have h3 : upsert_court (tbl ++ [p]) p = (tbl ++ [p], false) := by
    rw [upsert_court, if_pos (by simp)]
    rw [hmap]
  have h4 : (tbl ++ [p]).filter (fun r => r.name == p.name) = [p] := by
    rw [List.filter_append]
    have hnil : tbl.filter (fun r => r.name == p.name) = [] := by
      rw [List.filter_eq_nil_iff]
      intro r hr
      simpa using hfresh r hr
    simp [hnil]
  refine ⟨by rw [h1], by rw [h1, h3], by rw [h1, h3]; exact h4⟩

/-- C2 witness: two upserts of a concrete payload into the empty table. -/
theorem c2_upsert_idempotent_witness :
    (upsert_court [] exRow).2 = true ∧
    (upsert_court (upsert_court [] exRow).1 exRow).2 = false ∧
    (upsert_court (upsert_court [] exRow).1 exRow).1.filter
      (fun r => r.name == exRow.name) = [exRow] :=
  c2_upsert_idempotent [] exRow (by simp)

/-- C4: when the external verification call fails for one extracted
candidate, that candidate alone is dropped: the page loop and the
source persistence loop both produce exactly what they produce on the
sibling list without it, so no sibling is lost and the source is not
aborted. -/
theorem c4_verify_failure_isolated (svc : Candidate → Except Unit VerifyResponse)
    (pre post : List Candidate) (c : Candidate)
    (hfail : svc c = Except.error ()) (hnv : c.verified = none) :
    process_page_courts svc (pre ++ c :: post) =
      process_page_courts svc (pre ++ post) ∧
    ∀ (jid : Nat) (now : Int) (acc : List CourtRow × Nat × Nat),
      upsert_loop svc jid now (pre ++ c :: post) acc =
        upsert_loop svc jid now (pre ++ post) acc := by
  have hdrop : candidate_accepted (verify_court_info (svc c) c) = false := by
    rw [hfail]
    simp [verify_court_info, candidate_accepted, hnv]
  constructor
  · induction pre with
    | nil =>
      simp only [List.nil_append]
      simp [process_page_courts, hdrop]
    | cons a as ih =>
      simp only [List.cons_append, process_page_courts]
      simp only [List.append_eq, ih]
  · intro jid now acc
    induction pre generalizing acc with
    | nil =>
      obtain ⟨tbl, n, u⟩ := acc
      simp only [List.nil_append]
      simp [upsert_loop, hdrop]
    | cons a as ih =>
      obtain ⟨tbl, n, u⟩ := acc
      simp only [List.cons_append, upsert_loop]
      split
      · split
        · apply ih
        · rfl
      · apply ih

/-- C4 witness: a concrete page with one failing candidate between two
succeeding ones. -/
theorem c4_verify_failure_isolated_witness :
    svcW badCand = Except.error () ∧ badCand.verified = none ∧
    process_page_courts svcW ([exCandidate] ++ badCand :: [exCandidate]) =
      process_page_courts svcW ([exCandidate] ++ [exCandidate]) ∧
    upsert_loop svcW 2 10 ([exCandidate] ++ badCand :: [exCandidate]) ([], 0, 0) =
      upsert_loop svcW 2 10 ([exCandidate] ++ [exCandidate]) ([], 0, 0) :=
  ⟨rfl, rfl,
   (c4_verify_failure_isolated svcW [exCandidate] [exCandidate] badCand rfl rfl).1,
   (c4_verify_failure_isolated svcW [exCandidate] [exCandidate] badCand rfl rfl).2
     2 10 ([], 0, 0)⟩

/-- C10: verify_court_info is total and atomic: a failed service call
returns the input unchanged; a response missing any required key returns
the input unchanged; a response with all required keys present yields
the input enriched with exactly the nine fields from the response; and
an unenriched candidate is subsequently rejected by the acceptance
test. -/
theorem c10_verify_total_atomic :
    (∀ c : Candidate, verify_court_info (Except.error ()) c = c) ∧
    (∀ (r : VerifyResponse) (c : Candidate),
      (r.verified = none ∨ r.confidence = none ∨ r.type = none ∨
       r.status = none ∨ r.address = none ∨ r.jurisdiction = none ∨
       r.jurisdiction_type = none) →
      verify_court_info (Except.ok r) c = c) ∧
    (∀ (r : VerifyResponse) (c : Candidate) (v : Bool) (conf : ℚ)
       (ty st : String) (addr : Option String) (j jt : String),
      r.verified = some v → r.confidence = some conf → r.type = some ty →
      r.status = some st → r.address = some addr → r.jurisdiction = some j →
      r.jurisdiction_type = some jt →
      verify_court_info (Except.ok r) c =
        { c with verified := some v, confidence := some conf,
                 type := some ty, status := some st, address := addr,
                 jurisdiction := some j, jurisdiction_type := some jt,
                 contact_info := some (r.contact_info.getD ⟨none, none, none⟩),
                 message := r.message }) ∧
    (∀ c : Candidate, c.verified = none →
      candidate_accepted (verify_court_info (Except.error ()) c) = false) := by
  refine ⟨fun c => rfl, ?_, ?_, ?_⟩
  · intro r c h
    obtain ⟨v, conf, ty, st, addr, j, jt, ci, msg⟩ := r
    cases v <;> cases conf <;> cases ty <;> cases st <;> cases addr <;>
      cases j <;> cases jt <;> simp_all [verify_court_info]
  · intro r c v conf ty st addr j jt h1 h2 h3 h4 h5 h6 h7
    obtain ⟨v9, c9, t9, s9, a9, j9, jt9, ci9, m9⟩ := r
    simp only at h1 h2 h3 h4 h5 h6 h7
    subst h1 h2 h3 h4 h5 h6 h7
    rfl
  · intro c h
    show candidate_accepted c = false
    simp [candidate_accepted, h]

/-- C10 witness: verify_court_info at a failed call, at a response
missing the confidence key, and at a complete concrete response. -/
theorem c10_verify_total_atomic_witness :
    verify_court_info (Except.error ()) exCandidate = exCandidate ∧
    partialResponse.confidence = none ∧
    verify_court_info (Except.ok partialResponse) exCandidate = exCandidate ∧
    exResponse.verified = some true ∧
    verify_court_info (Except.ok exResponse) exCandidate =
      { exCandidate with verified := some true,
                         confidence := some ((7 : ℚ) / 10),
                         type := some "District Courts",
                         status := some "Open",
                         address := some "123 Main St, Springfield",
                         jurisdiction := some "Test State",
                         jurisdiction_type := some "state",
                         contact_info := some ⟨none, none, none⟩,
                         message := some "ok" } ∧
    exCandidate.verified = none ∧
    candidate_accepted (verify_court_info (Except.error ()) exCandidate) = false :=
  ⟨c10_verify_total_atomic.1 exCandidate, rfl,
   c10_verify_total_atomic.2.1 partialResponse exCandidate (Or.inr (Or.inl rfl)),
   rfl,
   c10_verify_total_atomic.2.2.1 exResponse exCandidate true ((7 : ℚ) / 10)
     "District Courts" "Open" (some "123 Main St, Springfield") "Test State"
     "state" rfl rfl rfl rfl rfl rfl rfl,
   rfl,
   c10_verify_total_atomic.2.2.2 exCandidate rfl⟩

/-- C8 counterexample: polling a source that yields zero extracted
courts at time 10 leaves its last_checked at its old value 5, so the
claim that last_checked is set on every poll regardless of outcome
fails at this input. -/
theorem c8_counterexample :
    ((process_court_source [] newRun exSource (some [])
        (fun _ => Except.error ()) 2 10).1.2.2).last_checked = some 5 ∧
    some (5 : Int) ≠ some (10 : Int) := by
  exact ⟨rfl, by decide⟩

/-- C8 amended: the source row is written only on the committed
processing path: on fetch failure, on zero extracted courts, and on a
mid-processing abort the row is unchanged; when processing commits,
last_checked is set to now and last_updated is set to now exactly when
at least one court was new or updated, being left unchanged otherwise. -/
theorem c8_mark_checked (tbl : List CourtRow) (run : InventoryRun)
    (src : CourtSource) (svc : Candidate → Except Unit VerifyResponse)
    (cands : List Candidate) (jid : Nat) (now : Int) :
    (process_court_source tbl run src none svc jid now).1.2.2 = src ∧
    (process_court_source tbl run src (some []) svc jid now).1.2.2 = src ∧
    (upsert_loop svc jid now cands (tbl, 0, 0) = Except.error () →
      (process_court_source tbl run src (some cands) svc jid now).1.2.2 = src) ∧
    (∀ (tbl2 : List CourtRow) (n u : Nat), cands ≠ [] →
      upsert_loop svc jid now cands (tbl, 0, 0) = Except.ok (tbl2, n, u) →
      (process_court_source tbl run src (some cands) svc jid now).1.2.2 =
        { src with last_checked := some now,
                   last_updated := if 0 < n || 0 < u then some now
                                   else src.last_updated } ∧
      (process_court_source tbl run src (some cands) svc jid now).2 = (n, u)) := by
  refine ⟨rfl, rfl, ?_, ?_⟩
  · intro h
    cases cands with
    | nil => rfl
    | cons a as => simp [process_court_source, h, -Prod.mk_zero_zero]
  · intro tbl2 n u hne hok
    cases cands with
    | nil => exact absurd rfl hne
    | cons a as =>
      constructor <;> simp [process_court_source, hok, -Prod.mk_zero_zero]

/-- C8 witness: a concrete source polled at time 10 with a fetch
failure, and with one candidate that is verified and newly inserted. -/
theorem c8_mark_checked_witness :
    ([exCandidate] ≠ ([] : List Candidate)) ∧
    upsert_loop svcOk 2 10 [exCandidate] ([], 0, 0) =
      Except.ok ([{ name := "Example District Court",
                    type := "District Courts", url := none,
                    jurisdiction_id := 2, status := "Open",
                    address := some "123 Main St, Springfield",
                    contact_info := ⟨none, none, none⟩,
                    last_updated := 10 }], 1, 0) ∧
    (process_court_source [] newRun exSource none svcOk 2 10).1.2.2 =
      exSource ∧
    (process_court_source [] newRun exSource (some [exCandidate]) svcOk 2 10).1.2.2 =
      { exSource with last_checked := some 10,
                      last_updated := if 0 < 1 || 0 < 0 then some (10 : Int)
                                      else exSource.last_updated } ∧
    (process_court_source [] newRun exSource (some [exCandidate]) svcOk 2 10).2 =
      (1, 0) := by
  have hok : upsert_loop svcOk 2 10 [exCandidate] ([], 0, 0) =
      Except.ok ([{ name := "Example District Court",
                    type := "District Courts", url := none,
                    jurisdiction_id := 2, status := "Open",
                    address := some "123 Main St, Springfield",
                    contact_info := ⟨none, none, none⟩,
                    last_updated := 10 }], 1, 0) := rfl
  have happ := (c8_mark_checked [] newRun exSource svcOk [exCandidate] 2 10).2.2.2
    _ 1 0 (by decide) hok
  exact ⟨by decide, hok,
         (c8_mark_checked [] newRun exSource svcOk [exCandidate] 2 10).1,
         happ.1, happ.2⟩

/-- Decomposition lemma: applying an appended operation list records the
states of the first part, then continues from its final state. -/
theorem applyOps_append (now : Int) (r : InventoryRun) (l1 l2 : List RunOp) :
    applyOps now r (l1 ++ l2) =
      applyOps now r l1 ++ applyOps now (l1.foldl (applyOp now) r) l2 := by
  induction l1 generalizing r with
  | nil => simp [applyOps]
  | cons op ops ih => simp [applyOps, ih]

/-- An operation that keeps a run running yields a running state with a
NULL completed_at, from any such state. -/
theorem applyOp_running (now : Int) (r : InventoryRun) (op : RunOp)
    (hop : keepsRunning op)
    (hr : r.status = "running" ∧ r.completed_at = none) :
    (applyOp now r op).status = "running" ∧
    (applyOp now r op).completed_at = none := by
  cases op with
  | upd sp tot st m c nx g =>
    have hst : st = "running" := hop
    subst hst
    exact ⟨rfl, rfl⟩
  | addCounts n u => exact hr

/-- An operation with a legal status argument yields a state with a
legal status, from any such state. -/
theorem applyOp_statusOk (now : Int) (r : InventoryRun) (op : RunOp)
    (hop : okOp op) (hr : statusOk r) : statusOk (applyOp now r op) := by
  cases op with
  | upd sp tot st m c nx g => exact hop
  | addCounts n u => exact hr

/-- Every state reached by running-preserving operations from a running
state with NULL completed_at is itself running with NULL completed_at. -/
theorem applyOps_running (now : Int) (ops : List RunOp)
    (hops : ∀ op ∈ ops, keepsRunning op) (r : InventoryRun)
    (hr : r.status = "running" ∧ r.completed_at = none) :
    ∀ s ∈ applyOps now r ops,
      s.status = "running" ∧ s.completed_at = none := by
  induction ops generalizing r with
  | nil =>
    intro s hs
    simp [applyOps] at hs
  | cons op ops ih =>
    intro s hs
    have h1 := applyOp_running now r op (hops op (List.mem_cons_self op ops)) hr
    simp only [applyOps, List.mem_cons] at hs
    rcases hs with rfl | hs
    · exact h1
    · exact ih (fun o ho => hops o (List.mem_cons_of_mem _ ho)) _ h1 s hs

/-- Every state reached by legal-status operations from a legal-status
state has a legal status. -/
theorem applyOps_statusOk (now : Int) (ops : List RunOp)
    (hops : ∀ op ∈ ops, okOp op) (r : InventoryRun) (hr : statusOk r) :
    ∀ s ∈ applyOps now r ops, statusOk s := by
  induction ops generalizing r with
  | nil =>
    intro s hs
    simp [applyOps] at hs
  | cons op ops ih =>
    intro s hs
    have h1 := applyOp_statusOk now r op (hops op (List.mem_cons_self op ops)) hr
    simp only [applyOps, List.mem_cons] at hs
    rcases hs with rfl | hs
    · exact h1
    · exact ih (fun o ho => hops o (List.mem_cons_of_mem _ ho)) _ h1 s hs

/-- Every operation in the per-source loop keeps the run running. -/
theorem loopOps_keepsRunning (tot : Nat) (ps : List (Nat × SourceStep)) :
    ∀ op ∈ loopOps tot ps, keepsRunning op := by
  induction ps with
  | nil =>
    intro op hop
    simp [loopOps] at hop
  | cons p rest ih =>
    obtain ⟨i, s⟩ := p
    intro op hop
    simp only [loopOps, List.mem_cons] at hop
    rcases hop with rfl | rfl | hop
    · rfl
    · trivial
    · exact ih op hop

/-- Running-preserving operations have legal status arguments. -/
theorem keepsRunning_okOp (op : RunOp) (h : keepsRunning op) : okOp op := by
  cases op with
  | upd sp tot st m c nx g => exact Or.inl h
  | addCounts n u => trivial

/-- Folding legal-status operations from a legal-status state yields a
legal-status state. -/
theorem foldl_statusOk (now : Int) (ops : List RunOp)
    (hops : ∀ op ∈ ops, okOp op) (r : InventoryRun) (hr : statusOk r) :
    statusOk (ops.foldl (applyOp now) r) := by
  induction ops generalizing r with
  | nil => exact hr
  | cons op ops ih =>
    exact ih (fun o ho => hops o (List.mem_cons_of_mem _ ho)) _
      (applyOp_statusOk now r op (hops op (List.mem_cons_self op ops)) hr)

/-- The operation sequence of one invocation is either empty or consists
of running-preserving operations followed by exactly one final operation
with a legal status argument. -/
theorem runOps_shape (srcs : List SourceStep) (out : RunOutcome) :
    runOps srcs out = [] ∨
    ∃ l t, runOps srcs out = l ++ [t] ∧
      (∀ op ∈ l, keepsRunning op) ∧ okOp t := by
  by_cases h : srcs.isEmpty
  · left
    simp [runOps, h]
  · right
    cases out with
    | success =>
      refine ⟨.upd 0 srcs.length "running" "Processing all courts" none none
          (some "Starting inventory update") ::
          loopOps srcs.length (List.enumFrom 1 srcs),
        .upd srcs.length srcs.length "completed" "Processed sources"
          (some "Complete") none (some "Finished"), ?_, ?_, ?_⟩
      · simp [runOps, h]
      · intro op hop
        rcases List.mem_cons.mp hop with rfl | hop
        · rfl
        · exact loopOps_keepsRunning _ _ op hop
      · exact Or.inr (Or.inl rfl)
    | failEarly =>
      refine ⟨[], .upd 0 srcs.length "error" "Error updating court inventory"
          (some "Error") none (some "Failed"), ?_, ?_, ?_⟩
      · simp [runOps, h]
      · intro op hop
        simp at hop
      · exact Or.inr (Or.inr rfl)
    | failLoop k =>
      refine ⟨.upd 0 srcs.length "running" "Processing all courts" none none
          (some "Starting inventory update") ::
          loopOps srcs.length (List.enumFrom 1 (srcs.take k)),
        .upd 0 srcs.length "error" "Error updating court inventory"
          (some "Error") none (some "Failed"), ?_, ?_, ?_⟩
      · simp [runOps, h]
      · intro op hop
        rcases List.mem_cons.mp hop with rfl | hop
        · rfl
        · exact loopOps_keepsRunning _ _ op hop
      · exact Or.inr (Or.inr rfl)

/-- C3: over any trace of one update_court_inventory invocation, every
state before the last is running with NULL completed_at, and every state
carries one of the three legal statuses.  Hence a terminal status can
only appear as the final state: the only transitions are from running to
completed or error, the terminal fields are written by that single final
operation, and no later operation exists to change them. -/
theorem c3_terminal_status_final (srcs : List SourceStep) (out : RunOutcome)
    (now : Int) :
    (∀ r ∈ (runTrace srcs out now).dropLast,
       r.status = "running" ∧ r.completed_at = none) ∧
    (∀ r ∈ runTrace srcs out now, statusOk r) := by
  rcases runOps_shape srcs out with hnil | ⟨l, t, heq, hl, ht⟩
  · constructor
    · intro r hr
      simp [runTrace, hnil, applyOps] at hr
    · intro r hr
      simp only [runTrace, hnil, applyOps, List.mem_singleton] at hr
      subst hr
      exact Or.inl rfl
  · have htrace : runTrace srcs out now =
        (newRun :: applyOps now newRun l) ++
          [applyOp now (l.foldl (applyOp now) newRun) t] := by
      rw [runTrace, heq, applyOps_append]
      simp [applyOps]
    constructor
    · intro r hr
      rw [htrace, List.dropLast_concat] at hr
      rcases List.mem_cons.mp hr with rfl | hr2
      · exact ⟨rfl, rfl⟩
      · exact applyOps_running now l hl newRun ⟨rfl, rfl⟩ r hr2
    · intro r hr
      rw [htrace] at hr
      rcases List.mem_append.mp hr with hr2 | hr3
      · rcases List.mem_cons.mp hr2 with rfl | hr4
        · exact Or.inl rfl
        · exact applyOps_statusOk now l
            (fun op ho => keepsRunning_okOp op (hl op ho)) newRun
            (Or.inl rfl) r hr4
      · rw [List.mem_singleton] at hr3
        subst hr3
        exact applyOp_statusOk now _ t ht
          (foldl_statusOk now l
            (fun op ho => keepsRunning_okOp op (hl op ho)) newRun
            (Or.inl rfl))

/-- C3 witness: the trace of a successful one-source run at time 9. -/
theorem c3_terminal_status_final_witness :
    newRun ∈ (runTrace [⟨"state", "CA", 1, 0⟩] RunOutcome.success 9).dropLast ∧
    (newRun.status = "running" ∧ newRun.completed_at = none) ∧
    newRun ∈ runTrace [⟨"state", "CA", 1, 0⟩] RunOutcome.success 9 ∧
    statusOk newRun :=
  ⟨by decide,
   (c3_terminal_status_final [⟨"state", "CA", 1, 0⟩] RunOutcome.success 9).1
     newRun (by decide),
   by decide,
   (c3_terminal_status_final [⟨"state", "CA", 1, 0⟩] RunOutcome.success 9).2
     newRun (by decide)⟩
